import Mathlib

/-!
Shallow embedding of the repository `florianthiery/insolation-diagram`,
consisting of the two scripts `plot_insolation.py` and
`115-250/plot_correlation.py`.  Numeric cell values after
`pd.to_numeric(..., errors="coerce")` are modelled as `Option ℚ`
(`none` standing for NaN); strings are modelled as `List Char`;
`np.pi` and `np.sin` are abstract parameters of the precession stage.
-/

/-- A row of the orbital-parameter table after numeric coercion: each of the
five columns `Age, ECC, OBL, OMEGA, EXI` holds `some q` for a parsed number
and `none` for NaN. -/
structure Row where
  age : Option ℚ
  ecc : Option ℚ
  obl : Option ℚ
  omega : Option ℚ
  exi : Option ℚ
deriving DecidableEq

/-- Python `str.isspace` for the characters relevant here (ASCII whitespace,
the 0x1C to 0x1F separators, NEL, NBSP and the Unicode space separators): the set of
characters removed by Python's `str.strip()`. -/
def pyIsSpace (c : Char) : Bool :=
  let n := c.toNat
  n == 0x9 || n == 0xa || n == 0xb || n == 0xc || n == 0xd || n == 0x20 ||
  (decide (0x1c ≤ n) && decide (n ≤ 0x1f)) || n == 0x85 || n == 0xa0 ||
  n == 0x1680 || (decide (0x2000 ≤ n) && decide (n ≤ 0x200a)) ||
  n == 0x2028 || n == 0x2029 || n == 0x202f || n == 0x205f || n == 0x3000

/-- Python `s.replace(t, "")` for a single-character pattern `t`. -/
def removeChar (t : Char) (s : List Char) : List Char :=
  s.filter (fun c => c ≠ t)

/-- Python `s.replace(t, r)` for single characters `t`, `r`. -/
def replaceChar (t r : Char) (s : List Char) : List Char :=
  s.map (fun c => if c = t then r else c)

/-- Python `s.strip()`: remove leading and trailing whitespace. -/
def pyStrip (s : List Char) : List Char :=
  ((s.dropWhile pyIsSpace).reverse.dropWhile pyIsSpace).reverse

/-- Source: `plot_insolation.py`, `norm_col` (string branch): remove every BOM
(U+FEFF), replace every no-break space (U+00A0) by an ordinary space, then
strip surrounding whitespace. -/
def norm_col (s : List Char) : List Char :=
  pyStrip (replaceChar '\u00A0' ' ' (removeChar '\uFEFF' s))

/-- Source: `plot_insolation.py`, `norm_col` including the `None` branch:
`if x is None: return ""`. -/
def norm_col_of_opt : Option (List Char) → List Char
  | none => []
  | some s => norm_col s

/-- Source: `plot_insolation.py`, `robust_read_table`, header post-processing:
`df.columns = [norm_col(c) for c in df.columns]`. -/
def robust_read_table_headers (hs : List (List Char)) : List (List Char) :=
  hs.map norm_col

/-- Source: `np.deg2rad x = x * (pi / 180)`, with `pi` an abstract parameter. -/
def np_deg2rad {α : Type} [Field α] (pi x : α) : α := x * (pi / 180)

/-- Maximum of a numeric series, `none` on the empty series
(pandas `Series.max()` of an all-NaN/empty series is NaN). -/
def seriesMax : List ℚ → Option ℚ
  | [] => none
  | x :: xs => some (xs.foldl max x)

/-- Source: `xs.getD i 0`: array access used by the extrema code at indices that the
clipping keeps in bounds. -/
def pyGet (xs : List ℚ) (i : Nat) : ℚ := xs.getD i 0

/-- Source: `np.take(..., mode="clip")` index clipping from above to `n - 1`
(clipping from below to `0` is natural subtraction on `Nat`). -/
def clipUp (n j : Nat) : Nat := min j (n - 1)

/-- The per-index comparison loop of `scipy.signal.argrelextrema`
(`_boolrelextrema` with `mode='clip'`): position `i` survives iff for every
`shift = 1..order`, `comp arr[i] arr[clip (i+shift)]` and
`comp arr[i] arr[clip (i-shift)]` hold. -/
def relOk (comp : ℚ → ℚ → Bool) (xs : List ℚ) (order i : Nat) : Bool :=
  (List.range order).all fun k =>
    comp (pyGet xs i) (pyGet xs (clipUp xs.length (i + (k + 1)))) &&
    comp (pyGet xs i) (pyGet xs (i - (k + 1)))

/-- Source: `scipy.signal.argrelextrema(arr, comp, order=order)[0]` as the list of
surviving indices in increasing order. -/
def argrelextrema (comp : ℚ → ℚ → Bool) (xs : List ℚ) (order : Nat) : List Nat :=
  (List.range xs.length).filter (relOk comp xs order)

/-- Source: `np.greater` on scalars. -/
def gtB (a b : ℚ) : Bool := decide (b < a)

/-- Source: `np.less` on scalars. -/
def ltB (a b : ℚ) : Bool := decide (a < b)

/-- Source: `plot_insolation.py`, `get_extrema_idx`: maxima indices paired with
minima indices. -/
def get_extrema_idx (xs : List ℚ) (order : Nat) : List Nat × List Nat :=
  (argrelextrema gtB xs order, argrelextrema ltB xs order)

/-- The condition of the spec's words, for a generic comparison: `comp`
holds between the value at `i` and every value at distance `1..order` that
lies within the array bounds (out-of-bounds neighbours are skipped). -/
def specRelAt (comp : ℚ → ℚ → Bool) (xs : List ℚ) (order i : Nat) : Bool :=
  (List.range order).all fun k =>
    (decide (xs.length ≤ i + (k + 1)) || comp (pyGet xs i) (pyGet xs (i + (k + 1)))) &&
    (decide (i < k + 1) || comp (pyGet xs i) (pyGet xs (i - (k + 1))))

/-- The condition of the claim's words for a maximum: the value at `i` is
strictly greater than every value at distance `1..order` within the array
bounds. -/
def specMaxAt (xs : List ℚ) (order i : Nat) : Bool :=
  specRelAt gtB xs order i

/-- The condition of the claim's words for a minimum: the value at `i` is
strictly less than every value at distance `1..order` within the array
bounds. -/
def specMinAt (xs : List ℚ) (order i : Nat) : Bool :=
  specRelAt ltB xs order i

namespace Insolation

/-- Source: `AGE_MIN_YR_B2K = 128_000`. -/
def AGE_MIN_YR_B2K : ℚ := 128000

/-- Source: `AGE_MAX_YR_B2K = 220_000`. -/
def AGE_MAX_YR_B2K : ℚ := 220000

/-- Source: `SHIFT_YEARS = 50` (BP → b2k shift). -/
def SHIFT_YEARS : ℚ := 50

/-- Source: `EXTREMA_ORDER = 3`. -/
def EXTREMA_ORDER : Nat := 3

/-- Source: `df["Age_yr_b2k"] = df[col_age] * 1000.0 + SHIFT_YEARS` on one row
(NaN propagates). -/
def ageB2k (r : Row) : Option ℚ := r.age.map (fun a => a * 1000 + SHIFT_YEARS)

/-- The row predicate of the window filter
`(df["Age_yr_b2k"] >= AGE_MIN_YR_B2K) & (df["Age_yr_b2k"] <= AGE_MAX_YR_B2K)`;
comparisons against NaN are false. -/
def inWindow (r : Row) : Bool :=
  match ageB2k r with
  | some b => decide (AGE_MIN_YR_B2K ≤ b) && decide (b ≤ AGE_MAX_YR_B2K)
  | none => false

/-- Source: `df = df[(df["Age_yr_b2k"] >= AGE_MIN_YR_B2K) & (df["Age_yr_b2k"] <= AGE_MAX_YR_B2K)]`. -/
def windowFiltered (t : List Row) : List Row := t.filter inWindow

/-- The row predicate of
`df.dropna(subset=["Age_yr_b2k", col_insol, col_ecc, col_obl, col_omega])`. -/
def hasAllCols (r : Row) : Bool :=
  (ageB2k r).isSome && r.exi.isSome && r.ecc.isSome && r.obl.isSome && r.omega.isSome

/-- Comparison key of `df.sort_values("Age_yr_b2k")`: ascending converted age,
NaN last. -/
def ageLe (r s : Row) : Bool :=
  match ageB2k r, ageB2k s with
  | some a, some b => decide (a ≤ b)
  | some _, none => true
  | none, some _ => false
  | none, none => true

/-- The whole transform stage of `plot_insolation.py`: window filter, then
`dropna`, then `sort_values("Age_yr_b2k")`. -/
def transform (t : List Row) : List Row :=
  ((windowFiltered t).filter hasAllCols).mergeSort ageLe

/-- Source: `age = df["Age_yr_b2k"]` on the transformed table. -/
def ageSeries (t : List Row) : List ℚ :=
  (transform t).map (fun r => (ageB2k r).getD 0)

/-- Source: `insol = df[col_insol]` on the transformed table. -/
def insolSeries (t : List Row) : List ℚ :=
  (transform t).map (fun r => r.exi.getD 0)

/-- Source: `ecc = df[col_ecc]` on the transformed table. -/
def eccSeries (t : List Row) : List ℚ :=
  (transform t).map (fun r => r.ecc.getD 0)

/-- Source: `obl_raw = df[col_obl].copy()` on the transformed table. -/
def oblRawSeries (t : List Row) : List ℚ :=
  (transform t).map (fun r => r.obl.getD 0)

/-- The test `obl_raw.max() > 100` guarding the obliquity rescale. -/
def oblNeedsScale (xs : List ℚ) : Bool :=
  match seriesMax xs with
  | some m => decide (100 < m)
  | none => false

/-- Source: `obl = obl_raw / 1000.0 if obl_raw.max() > 100 else obl_raw`. -/
def scaleObl (xs : List ℚ) : List ℚ :=
  if oblNeedsScale xs then xs.map (fun v => v / 1000) else xs

/-- The obliquity series actually plotted. -/
def oblSeries (t : List Row) : List ℚ := scaleObl (oblRawSeries t)

/-- Source: `prec_index = ecc * np.sin(np.deg2rad(df[col_omega]))` on scalars, with
`sine` and `pi` abstract parameters standing for `np.sin` and `np.pi`. -/
def prec_index {α : Type} [Field α] (sine : α → α) (pi e om : α) : α :=
  e * sine (np_deg2rad pi om)

/-- The precession-index series of `plot_insolation.py`. -/
def precSeries (pi : ℚ) (sine : ℚ → ℚ) (t : List Row) : List ℚ :=
  (transform t).map (fun r => prec_index sine pi (r.ecc.getD 0) (r.omega.getD 0))

/-- Source: `ecc_max, ecc_min = get_extrema_idx(ecc, order=EXTREMA_ORDER)`. -/
def ecc_extrema (t : List Row) : List Nat × List Nat :=
  get_extrema_idx (eccSeries t) EXTREMA_ORDER

/-- Source: `obl_max, obl_min = get_extrema_idx(obl, order=EXTREMA_ORDER)`. -/
def obl_extrema (t : List Row) : List Nat × List Nat :=
  get_extrema_idx (oblSeries t) EXTREMA_ORDER

/-- Source: `prec_max, prec_min = get_extrema_idx(prec_index, order=EXTREMA_ORDER)`. -/
def prec_extrema (pi : ℚ) (sine : ℚ → ℚ) (t : List Row) : List Nat × List Nat :=
  get_extrema_idx (precSeries pi sine t) EXTREMA_ORDER

/-- The five required column names `{Age, ECC, OBL, OMEGA, EXI}`, in the order
of the literal. -/
def neededCols : List (List Char) :=
  ["Age".data, "ECC".data, "OBL".data, "OMEGA".data, "EXI".data]

/-- Source: `missing = [c for c in needed if c not in df.columns]`. -/
def missingCols (headers : List (List Char)) : List (List Char) :=
  neededCols.filter (fun c => !headers.contains c)

/-- Payload of the `ValueError` message
`f"Fehlende Spalten: {missing}\nGefunden: {df.columns.tolist()}"`. -/
structure LoadError where
  missing : List (List Char)
  found : List (List Char)
deriving DecidableEq

/-- Source: `if missing: raise ValueError(...)`: the required-column check. -/
def checkColumns (headers : List (List Char)) : Except LoadError Unit :=
  if missingCols headers = [] then Except.ok ()
  else Except.error ⟨missingCols headers, headers⟩

/-- Source: `out_base = "insolation_vs_age_orbital_extrema"`. -/
def out_base : String := "insolation_vs_age_orbital_extrema"

/-- The two `plt.savefig` calls of `plot_insolation.py`, in order. -/
def savedFiles : List String := [out_base ++ ".jpg", out_base ++ ".svg"]

/-- Everything the insolation script derives from the coerced input table
before plotting. -/
def derived (pi : ℚ) (sine : ℚ → ℚ) (t : List Row) :=
  (transform t, ageSeries t, insolSeries t, eccSeries t, oblSeries t,
   precSeries pi sine t, ecc_extrema t, obl_extrema t, prec_extrema pi sine t)

end Insolation

namespace Correlation

/-- Source: `AGE_MIN_B2K = 115` (ka b2k). -/
def AGE_MIN_B2K : ℚ := 115

/-- Source: `AGE_MAX_B2K = 250` (ka b2k). -/
def AGE_MAX_B2K : ℚ := 250

/-- Source: `SHIFT_YEARS = 50`. -/
def SHIFT_YEARS : ℚ := 50

/-- Source: `SHIFT_KA = SHIFT_YEARS / 1000.0`. -/
def SHIFT_KA : ℚ := SHIFT_YEARS / 1000

/-- Source: `age_min_bp = AGE_MIN_B2K - SHIFT_KA`. -/
def age_min_bp : ℚ := AGE_MIN_B2K - SHIFT_KA

/-- Source: `age_max_bp = AGE_MAX_B2K - SHIFT_KA`. -/
def age_max_bp : ℚ := AGE_MAX_B2K - SHIFT_KA

/-- Row predicate of
`sub = df[(df[col_age_bp] >= age_min_bp) & (df[col_age_bp] <= age_max_bp)]`. -/
def kept (r : Row) : Bool :=
  match r.age with
  | some a => decide (age_min_bp ≤ a) && decide (a ≤ age_max_bp)
  | none => false

/-- Comparison key of `sub.sort_values(col_age_bp)`: ascending BP age,
NaN last. -/
def bpLe (r s : Row) : Bool :=
  match r.age, s.age with
  | some a, some b => decide (a ≤ b)
  | some _, none => true
  | none, some _ => false
  | none, none => true

/-- The transform stage of `plot_correlation.py`: BP-window filter then
`sort_values(col_age_bp)`. -/
def transform (t : List Row) : List Row :=
  (t.filter kept).mergeSort bpLe

/-- Source: `age_b2k = sub[col_age_bp] + SHIFT_KA` applied to one row. -/
def ageB2kOf (r : Row) : Option ℚ := r.age.map (fun a => a + SHIFT_KA)

/-- The b2k age series used for colouring. -/
def ageB2kSeries (t : List Row) : List (Option ℚ) :=
  (transform t).map ageB2kOf

/-- Source: `ecc = sub[col_ecc]`. -/
def eccSeries (t : List Row) : List (Option ℚ) :=
  (transform t).map (fun r => r.ecc)

/-- Source: `insol = sub[col_insol]`. -/
def insolSeries (t : List Row) : List (Option ℚ) :=
  (transform t).map (fun r => r.exi)

/-- Source: `obl_raw.max()` with pandas NaN skipping: the maximum of the non-NaN
entries, `none` if there are none. -/
def oblMax (xs : List (Option ℚ)) : Option ℚ :=
  seriesMax (xs.filterMap id)

/-- The test `obl_raw.max() > 100` in `plot_correlation.py`. -/
def oblNeedsScale (xs : List (Option ℚ)) : Bool :=
  match oblMax xs with
  | some m => decide (100 < m)
  | none => false

/-- Source: `obl = obl_raw / 1000.0 if obl_raw.max() > 100 else obl_raw`
(NaN entries stay NaN under division). -/
def scaleObl (xs : List (Option ℚ)) : List (Option ℚ) :=
  if oblNeedsScale xs then xs.map (Option.map (fun v => v / 1000)) else xs

/-- The obliquity series actually plotted by `plot_correlation.py`. -/
def oblSeries (t : List Row) : List (Option ℚ) :=
  scaleObl ((transform t).map (fun r => r.obl))

/-- Source: `prec_index = ecc * np.sin(np.deg2rad(sub[col_omega]))` on scalars:
the derivation of `plot_correlation.py`, with `sine`, `pi` abstract. -/
def prec_index {α : Type} [Field α] (sine : α → α) (pi e om : α) : α :=
  e * sine (np_deg2rad pi om)

/-- The precession-index series of `plot_correlation.py` (NaN propagates). -/
def precSeries (pi : ℚ) (sine : ℚ → ℚ) (t : List Row) : List (Option ℚ) :=
  (transform t).map fun r =>
    match r.ecc, r.omega with
    | some e, some om => some (prec_index sine pi e om)
    | _, _ => none

/-- The five columns coerced by the `for c in [...]` loop of `main`, in loop
order. -/
def requiredCols : List (List Char) :=
  ["Age".data, "ECC".data, "OBL".data, "OMEGA".data, "EXI".data]

/-- The required columns absent from the headers, in loop order. -/
def missingRequired (headers : List (List Char)) : List (List Char) :=
  requiredCols.filter (fun c => !headers.contains c)

/-- The coercion loop `for c in [...]: df[c] = pd.to_numeric(df[c], ...)`:
columns are processed in order until `df[c]` on an absent column raises
`KeyError(c)`.  Returns the columns processed before the outcome, and the
outcome. -/
def coerceColumns (headers : List (List Char)) :
    List (List Char) → List (List Char) × Except (List Char) Unit
  | [] => ([], Except.ok ())
  | c :: cs =>
    if headers.contains c then
      let rest := coerceColumns headers cs
      (c :: rest.1, rest.2)
    else ([], Except.error c)

/-- The column-coercion stage of `main` applied to the table headers. -/
def coerceMain (headers : List (List Char)) :
    List (List Char) × Except (List Char) Unit :=
  coerceColumns headers requiredCols

/-- Source: `export_figure`: `fig.savefig(f"{out_base}.jpg")` then
`fig.savefig(f"{out_base}.svg")`. -/
def export_figure_files (out_base : String) : List String :=
  [out_base ++ ".jpg", out_base ++ ".svg"]

/-- The three `out_base` arguments of the `scatter_plot` calls in `main`, in
call order. -/
def outBases : List String :=
  ["corr_insolation_vs_ecc", "corr_insolation_vs_obliquity",
   "corr_insolation_vs_precession_index"]

/-- All files saved by one run of `plot_correlation.py`, in order. -/
def savedFiles : List String :=
  outBases.flatMap export_figure_files

/-- Everything the correlation script derives from the coerced input table
before plotting. -/
def derived (pi : ℚ) (sine : ℚ → ℚ) (t : List Row) :=
  (transform t, ageB2kSeries t, eccSeries t, insolSeries t, oblSeries t,
   precSeries pi sine t)

end Correlation

theorem missingCols_mem (hs : List (List Char)) (c : List Char) :
    c ∈ Insolation.missingCols hs ↔ c ∈ Insolation.neededCols ∧ c ∉ hs := by
  simp [Insolation.missingCols, List.mem_filter]

theorem missingCols_nil_iff (hs : List (List Char)) :
    Insolation.missingCols hs = [] ↔ ∀ c ∈ Insolation.neededCols, c ∈ hs := by
  simp [Insolation.missingCols, List.filter_eq_nil_iff]

/-- C5: both scripts derive the precession index by the same function of
`(ECC, OMEGA)`, namely `e * sin(deg2rad ω)` with `deg2rad ω = ω * (π / 180)`. -/
theorem prec_index_equiv {α : Type} [Field α] (sine : α → α) (pi e om : α) :
    Insolation.prec_index sine pi e om = Correlation.prec_index sine pi e om ∧
    Insolation.prec_index sine pi e om = e * sine (om * (pi / 180)) :=
  ⟨rfl, rfl⟩

theorem prec_index_equiv_witness :
    Insolation.prec_index (fun x => x) (3 : ℚ) 2 90 =
      Correlation.prec_index (fun x => x) 3 2 90 :=
  (prec_index_equiv (fun x => x) 3 2 90).1

/-- C6: each produced figure is saved under its base name as a `.jpg` and a
`.svg`: one pair for the insolation script, three pairs for the correlation
script. -/
theorem saved_figure_pairs :
    Insolation.savedFiles =
      ["insolation_vs_age_orbital_extrema.jpg",
       "insolation_vs_age_orbital_extrema.svg"] ∧
    Correlation.savedFiles =
      ["corr_insolation_vs_ecc.jpg", "corr_insolation_vs_ecc.svg",
       "corr_insolation_vs_obliquity.jpg", "corr_insolation_vs_obliquity.svg",
       "corr_insolation_vs_precession_index.jpg",
       "corr_insolation_vs_precession_index.svg"] ∧
    Correlation.savedFiles =
      Correlation.outBases.flatMap Correlation.export_figure_files ∧
    ∀ b, Correlation.export_figure_files b = [b ++ ".jpg", b ++ ".svg"] :=
  ⟨by decide, by decide, rfl, fun _ => rfl⟩

/-- C7: both pipelines are deterministic functions of the input table: two
runs on the same coerced input produce identical derived tables, series and
extrema index sets. -/
theorem pipeline_deterministic (pi : ℚ) (sine : ℚ → ℚ) (t₁ t₂ : List Row)
    (h : t₁ = t₂) :
    Insolation.derived pi sine t₁ = Insolation.derived pi sine t₂ ∧
    Correlation.derived pi sine t₁ = Correlation.derived pi sine t₂ := by
  subst h
  exact ⟨rfl, rfl⟩

theorem pipeline_deterministic_witness :
    Insolation.derived 0 (fun x => x) [] = Insolation.derived 0 (fun x => x) [] ∧
    Correlation.derived 0 (fun x => x) [] = Correlation.derived 0 (fun x => x) [] :=
  pipeline_deterministic 0 (fun x => x) [] [] rfl

/-- C8: in both scripts the obliquity series is rescaled as a whole or left
unchanged as a whole — divided by 1000 exactly when the maximum of the raw
column exceeds 100 — and the insolation script applies this to the raw
obliquity series of the filtered table. -/
theorem obliquity_scaling_all_or_nothing (xs : List ℚ) (ys : List (Option ℚ))
    (t : List Row) :
    ((Insolation.oblNeedsScale xs = true ∧
        Insolation.scaleObl xs = xs.map (fun v => v / 1000)) ∨
      (Insolation.oblNeedsScale xs = false ∧ Insolation.scaleObl xs = xs)) ∧
    ((Correlation.oblNeedsScale ys = true ∧
        Correlation.scaleObl ys = ys.map (Option.map (fun v => v / 1000))) ∨
      (Correlation.oblNeedsScale ys = false ∧ Correlation.scaleObl ys = ys)) ∧
    (Insolation.oblNeedsScale xs = true ↔
      ∃ m, seriesMax xs = some m ∧ 100 < m) ∧
    (Correlation.oblNeedsScale ys = true ↔
      ∃ m, Correlation.oblMax ys = some m ∧ 100 < m) ∧
    Insolation.oblSeries t = Insolation.scaleObl (Insolation.oblRawSeries t) := by
  refine ⟨?_, ?_, ?_, ?_, rfl⟩
  · cases h : Insolation.oblNeedsScale xs
    · exact Or.inr ⟨rfl, by simp [Insolation.scaleObl, h]⟩
    · exact Or.inl ⟨rfl, by simp [Insolation.scaleObl, h]⟩
  · cases h : Correlation.oblNeedsScale ys
    · exact Or.inr ⟨rfl, by simp [Correlation.scaleObl, h]⟩
    · exact Or.inl ⟨rfl, by simp [Correlation.scaleObl, h]⟩
  · unfold Insolation.oblNeedsScale
    cases hm : seriesMax xs <;> simp [hm]
  · unfold Correlation.oblNeedsScale
    cases hm : Correlation.oblMax ys <;> simp [hm]

/-- C2: the insolation script converts each age `a` (ka BP) to
`a * 1000 + 50` (yr b2k) and keeps a row under the window filter iff the
converted age lies in `[128000, 220000]`; the correlation script filters the
BP age against the b2k window shifted by `-0.05` ka and then adds
`SHIFT_KA = 0.05` ka, which is equivalent to requiring the converted age to
lie in `[115, 250]` ka b2k. -/
theorem age_unit_conversion (r : Row) (a : ℚ) (t : List Row)
    (h : r.age = some a) :
    Insolation.ageB2k r = some (a * 1000 + 50) ∧
    (r ∈ Insolation.windowFiltered t ↔
      r ∈ t ∧ 128000 ≤ a * 1000 + 50 ∧ a * 1000 + 50 ≤ 220000) ∧
    Correlation.SHIFT_KA = (0.05 : ℚ) ∧
    Correlation.ageB2kOf r = some (a + 0.05) ∧
    (Correlation.kept r = true ↔ 115 - 0.05 ≤ a ∧ a ≤ 250 - 0.05) ∧
    (Correlation.kept r = true ↔ 115 ≤ a + 0.05 ∧ a + 0.05 ≤ 250) := by
  have hb : Insolation.ageB2k r = some (a * 1000 + 50) := by
    simp [Insolation.ageB2k, h, Insolation.SHIFT_YEARS]
  have hshift : Correlation.SHIFT_KA = (0.05 : ℚ) := by
    norm_num [Correlation.SHIFT_KA, Correlation.SHIFT_YEARS]
  have hkept : Correlation.kept r = true ↔ 115 - 0.05 ≤ a ∧ a ≤ 250 - 0.05 := by
    simp [Correlation.kept, h, Correlation.age_min_bp, Correlation.age_max_bp,
      Correlation.AGE_MIN_B2K, Correlation.AGE_MAX_B2K, hshift]
  refine ⟨hb, ?_, hshift, ?_, hkept, ?_⟩
  · rw [Insolation.windowFiltered, List.mem_filter]
    simp [Insolation.inWindow, hb, Insolation.AGE_MIN_YR_B2K,
      Insolation.AGE_MAX_YR_B2K]
  · simp [Correlation.ageB2kOf, h, hshift]
  · rw [hkept]
    constructor
    · rintro ⟨h1, h2⟩
      constructor <;> linarith
    · rintro ⟨h1, h2⟩
      constructor <;> linarith

theorem age_unit_conversion_witness :
    Insolation.ageB2k ⟨some 150, some 1, some 1, some 1, some 1⟩ =
      some (150 * 1000 + 50) :=
  (age_unit_conversion ⟨some 150, some 1, some 1, some 1, some 1⟩ 150 [] rfl).1

/-- C3: the insolation script raises iff one of the five required columns is
missing from the normalized headers, the error payload lists exactly the
missing columns together with the headers found, and with nothing missing
loading succeeds. -/
theorem required_columns_error (hs : List (List Char)) :
    ((Insolation.checkColumns hs = Except.ok ()) ↔
      ∀ c ∈ Insolation.neededCols, c ∈ hs) ∧
    ((∃ e, Insolation.checkColumns hs = Except.error e) ↔
      ∃ c ∈ Insolation.neededCols, c ∉ hs) ∧
    (∀ e, Insolation.checkColumns hs = Except.error e →
      (∀ c, c ∈ e.missing ↔ c ∈ Insolation.neededCols ∧ c ∉ hs) ∧
      e.found = hs ∧ e.missing ≠ []) := by
  by_cases hmc : Insolation.missingCols hs = []
  · refine ⟨?_, ?_, ?_⟩
    · constructor
      · intro _
        exact (missingCols_nil_iff hs).mp hmc
      · intro _
        simp [Insolation.checkColumns, hmc]
    · constructor
      · rintro ⟨e, he⟩
        simp [Insolation.checkColumns, hmc] at he
      · rintro ⟨c, hc, hcn⟩
        exact absurd ((missingCols_nil_iff hs).mp hmc c hc) hcn
    · intro e he
      simp [Insolation.checkColumns, hmc] at he
  · have hex : ∃ c ∈ Insolation.neededCols, c ∉ hs := by
      rcases List.exists_mem_of_ne_nil _ hmc with ⟨c, hc⟩
      exact ⟨c, (missingCols_mem hs c).mp hc⟩
    refine ⟨?_, ?_, ?_⟩
    · constructor
      · intro hok
        simp [Insolation.checkColumns, hmc] at hok
      · intro hall
        exact absurd ((missingCols_nil_iff hs).mpr hall) hmc
    · constructor
      · intro _; exact hex
      · intro _
        exact ⟨⟨Insolation.missingCols hs, hs⟩, by simp [Insolation.checkColumns, hmc]⟩
    · intro e he
      simp only [Insolation.checkColumns, hmc, if_neg hmc] at he
      cases he
      exact ⟨fun c => missingCols_mem hs c, rfl, hmc⟩

theorem required_columns_error_witness :
    Insolation.checkColumns Insolation.neededCols = Except.ok () :=
  (required_columns_error Insolation.neededCols).1.mpr (by decide)

theorem head?_filter_not {α : Type} (p : α → Bool) (l : List α) :
    (l.filter (fun a => !p a)).head? = (l.dropWhile p).head? := by
  induction l with
  | nil => rfl
  | cons a l ih =>
    by_cases h : p a = true
    · simp [List.filter_cons, List.dropWhile_cons, h, ih]
    · simp [List.filter_cons, List.dropWhile_cons, h]

theorem coerceColumns_eq (hs : List (List Char)) (cs : List (List Char)) :
    (Correlation.coerceColumns hs cs).1 = cs.takeWhile (fun c => hs.contains c) ∧
    (Correlation.coerceColumns hs cs).2 =
      (match (cs.dropWhile (fun c => hs.contains c)).head? with
       | none => Except.ok ()
       | some c => Except.error c) := by
  induction cs with
  | nil => exact ⟨rfl, rfl⟩
  | cons c cs ih =>
    by_cases h : c ∈ hs
    · simpa [Correlation.coerceColumns, h, List.takeWhile_cons,
        List.dropWhile_cons] using ih
    · simp [Correlation.coerceColumns, h, List.takeWhile_cons,
        List.dropWhile_cons]

/-- C4 counterexample: on a table whose headers are exactly `Age, ECC, EXI`,
the correlation script does not perform a required-column check before
processing — it has already coerced the columns `Age` and `ECC` when the
access to the absent column `OBL` fails, and the failure names only `OBL`
although `OMEGA` is missing as well. -/
theorem correlation_no_check_cex :
    ¬ ((Correlation.coerceMain ["Age".data, "ECC".data, "EXI".data]).1 = []) ∧
    (Correlation.coerceMain ["Age".data, "ECC".data, "EXI".data]).1 =
      ["Age".data, "ECC".data] ∧
    (Correlation.coerceMain ["Age".data, "ECC".data, "EXI".data]).2 =
      Except.error "OBL".data ∧
    Correlation.missingRequired ["Age".data, "ECC".data, "EXI".data] =
      ["OBL".data, "OMEGA".data] :=
  ⟨by decide, by decide, rfl, by decide⟩

/-- C4 (amended): only the insolation script performs an explicit
required-column check, raising before any processing with all missing
columns reported; in the correlation script a missing required column
surfaces only as a key error from column access during the per-column
numeric coercion, naming just the first missing column, after the preceding
columns have already been processed. -/
theorem error_handling_per_script (hs : List (List Char)) :
    ((Insolation.checkColumns hs = Except.ok ()) ↔
      Insolation.missingCols hs = []) ∧
    (((Correlation.coerceMain hs).2 = Except.ok ()) ↔
      Correlation.missingRequired hs = []) ∧
    (Correlation.coerceMain hs).1 =
      Correlation.requiredCols.takeWhile (fun c => hs.contains c) ∧
    (∀ c, (Correlation.coerceMain hs).2 = Except.error c →
      (Correlation.missingRequired hs).head? = some c) := by
  obtain ⟨h1, h2⟩ := coerceColumns_eq hs Correlation.requiredCols
  have hf := head?_filter_not (fun c => hs.contains c) Correlation.requiredCols
  refine ⟨?_, ?_, h1, ?_⟩
  · unfold Insolation.checkColumns
    by_cases hmc : Insolation.missingCols hs = [] <;> simp [hmc]
  · unfold Correlation.coerceMain
    rw [h2, ← hf]
    unfold Correlation.missingRequired
    cases hh : (Correlation.requiredCols.filter fun c => !hs.contains c).head? with
    | none =>
      have hnil : (Correlation.requiredCols.filter fun c => !hs.contains c) = [] :=
        List.head?_eq_none_iff.mp hh
      rw [hnil]
      simp
    | some c =>
      constructor
      · intro he
        exact absurd he (by simp)
      · intro he
        rw [he] at hh
        simp at hh
  · intro c hc
    unfold Correlation.coerceMain at hc
    rw [h2, ← hf] at hc
    unfold Correlation.missingRequired
    cases hh : (Correlation.requiredCols.filter fun d => !hs.contains d).head? with
    | none => rw [hh] at hc; simp at hc
    | some d =>
      rw [hh] at hc
      simp only [Except.error.injEq] at hc
      exact congrArg some hc

theorem error_handling_per_script_witness :
    (Correlation.coerceMain Correlation.requiredCols).2 = Except.ok () :=
  (error_handling_per_script Correlation.requiredCols).2.1.mpr (by decide)

theorem ageLe_trans : ∀ a b c : Row, Insolation.ageLe a b → Insolation.ageLe b c →
    Insolation.ageLe a c := by
  intro a b c h1 h2
  unfold Insolation.ageLe at *
  cases ha : Insolation.ageB2k a <;> cases hb : Insolation.ageB2k b <;>
    cases hc : Insolation.ageB2k c <;> simp_all <;> exact le_trans h1 h2

theorem ageLe_total : ∀ a b : Row, Insolation.ageLe a b || Insolation.ageLe b a := by
  intro a b
  unfold Insolation.ageLe
  cases ha : Insolation.ageB2k a <;> cases hb : Insolation.ageB2k b <;> simp <;>
    exact le_total _ _

theorem bpLe_trans : ∀ a b c : Row, Correlation.bpLe a b → Correlation.bpLe b c →
    Correlation.bpLe a c := by
  intro a b c h1 h2
  unfold Correlation.bpLe at *
  cases ha : a.age <;> cases hb : b.age <;> cases hc : c.age <;> simp_all <;>
    exact le_trans h1 h2

theorem bpLe_total : ∀ a b : Row, Correlation.bpLe a b || Correlation.bpLe b a := by
  intro a b
  unfold Correlation.bpLe
  cases ha : a.age <;> cases hb : b.age <;> simp <;> exact le_total _ _

theorem mem_insol_transform (t : List Row) (r : Row) :
    r ∈ Insolation.transform t ↔
      r ∈ t ∧ Insolation.inWindow r = true ∧ Insolation.hasAllCols r = true := by
  unfold Insolation.transform Insolation.windowFiltered
  simp only [List.mem_mergeSort, List.mem_filter, and_assoc]

theorem mem_corr_transform (t : List Row) (r : Row) :
    r ∈ Correlation.transform t ↔ r ∈ t ∧ Correlation.kept r = true := by
  unfold Correlation.transform
  simp [List.mem_filter]

theorem scaleObl_length (xs : List ℚ) :
    (Insolation.scaleObl xs).length = xs.length := by
  unfold Insolation.scaleObl
  split <;> simp

/-- C9: after the transform stage of each script the in-memory table is
sorted by ascending age, every row passes the configured age window, every
row of the insolation table has non-NaN values in all five key columns, and
the series later read by the extrema lookup and the plotting all have the
length of the transformed table. -/
theorem transform_invariant (t : List Row) (pi : ℚ) (sine : ℚ → ℚ) :
    (Insolation.transform t).Pairwise (fun r s => Insolation.ageLe r s = true) ∧
    (∀ r ∈ Insolation.transform t,
      Insolation.inWindow r = true ∧ Insolation.hasAllCols r = true) ∧
    (Correlation.transform t).Pairwise (fun r s => Correlation.bpLe r s = true) ∧
    (∀ r ∈ Correlation.transform t, Correlation.kept r = true) ∧
    (Insolation.ageSeries t).length = (Insolation.transform t).length ∧
    (Insolation.insolSeries t).length = (Insolation.transform t).length ∧
    (Insolation.eccSeries t).length = (Insolation.transform t).length ∧
    (Insolation.oblSeries t).length = (Insolation.transform t).length ∧
    (Insolation.precSeries pi sine t).length = (Insolation.transform t).length := by
  refine ⟨?_, ?_, ?_, ?_, ?_, ?_, ?_, ?_, ?_⟩
  · exact List.sorted_mergeSort ageLe_trans ageLe_total _
  · intro r hr
    exact ((mem_insol_transform t r).mp hr).2
  · exact List.sorted_mergeSort bpLe_trans bpLe_total _
  · intro r hr
    exact ((mem_corr_transform t r).mp hr).2
  · simp [Insolation.ageSeries]
  · simp [Insolation.insolSeries]
  · simp [Insolation.eccSeries]
  · simp [Insolation.oblSeries, scaleObl_length, Insolation.oblRawSeries]
  · simp [Insolation.precSeries]

theorem transform_invariant_witness :
    Insolation.inWindow ⟨some 150, some 1, some 1, some 1, some 1⟩ = true ∧
    Insolation.hasAllCols ⟨some 150, some 1, some 1, some 1, some 1⟩ = true :=
  (transform_invariant [⟨some 150, some 1, some 1, some 1, some 1⟩] 0
      (fun x => x)).2.1 ⟨some 150, some 1, some 1, some 1, some 1⟩
    ((mem_insol_transform _ _).mpr
      ⟨List.mem_singleton.mpr rfl,
        by
          simp [Insolation.inWindow, Insolation.ageB2k, Insolation.SHIFT_YEARS,
            Insolation.AGE_MIN_YR_B2K, Insolation.AGE_MAX_YR_B2K]
          norm_num,
        by decide⟩)

theorem relOk_eq_forall (comp : ℚ → ℚ → Bool) (xs : List ℚ) (order i : Nat) :
    relOk comp xs order i = true ↔
      ∀ k < order,
        comp (pyGet xs i) (pyGet xs (clipUp xs.length (i + (k + 1)))) = true ∧
        comp (pyGet xs i) (pyGet xs (i - (k + 1))) = true := by
  unfold relOk
  simp [List.all_eq_true, List.mem_range, Bool.and_eq_true]

theorem specRelAt_eq_forall (comp : ℚ → ℚ → Bool) (xs : List ℚ) (order i : Nat) :
    specRelAt comp xs order i = true ↔
      ∀ k < order,
        (xs.length ≤ i + (k + 1) ∨
          comp (pyGet xs i) (pyGet xs (i + (k + 1))) = true) ∧
        (i < k + 1 ∨ comp (pyGet xs i) (pyGet xs (i - (k + 1))) = true) := by
  unfold specRelAt
  simp [List.all_eq_true, List.mem_range, Bool.and_eq_true, Bool.or_eq_true,
    decide_eq_true_iff]

theorem relOk_iff_spec (comp : ℚ → ℚ → Bool) (hirr : ∀ a, comp a a = false)
    (xs : List ℚ) (order i : Nat) (ho : 0 < order) (hi : i < xs.length) :
    relOk comp xs order i = true ↔
      0 < i ∧ i + 1 < xs.length ∧ specRelAt comp xs order i = true := by
  rw [relOk_eq_forall, specRelAt_eq_forall]
  constructor
  · intro h
    have h0 : 0 < i := by
      by_contra h0
      have hi0 : i = 0 := by omega
      have h2 := (h 0 ho).2
      rw [hi0] at h2
      simp only [Nat.zero_sub] at h2
      rw [hirr] at h2
      exact Bool.false_ne_true h2
    have h1 : i + 1 < xs.length := by
      by_contra h1
      have hclip : clipUp xs.length (i + (0 + 1)) = i := by
        unfold clipUp
        omega
      have h2 := (h 0 ho).1
      rw [hclip] at h2
      rw [hirr] at h2
      exact Bool.false_ne_true h2
    refine ⟨h0, h1, fun k hk => ⟨?_, ?_⟩⟩
    · by_cases hr : xs.length ≤ i + (k + 1)
      · exact Or.inl hr
      · right
        have hclip : clipUp xs.length (i + (k + 1)) = i + (k + 1) := by
          unfold clipUp
          omega
        have h2 := (h k hk).1
        rwa [hclip] at h2
    · by_cases hl : i < k + 1
      · exact Or.inl hl
      · exact Or.inr (h k hk).2
  · rintro ⟨h0, h1, hsp⟩
    intro k hk
    constructor
    · by_cases hr : i + (k + 1) < xs.length
      · have hclip : clipUp xs.length (i + (k + 1)) = i + (k + 1) := by
          unfold clipUp
          omega
        rw [hclip]
        rcases (hsp k hk).1 with hg | hc
        · omega
        · exact hc
      · have hclip : clipUp xs.length (i + (k + 1)) = xs.length - 1 := by
          unfold clipUp
          omega
        rw [hclip]
        have hd1 : xs.length - 1 - i - 1 < order := by omega
        rcases (hsp (xs.length - 1 - i - 1) hd1).1 with hg | hc
        · omega
        · have he : i + (xs.length - 1 - i - 1 + 1) = xs.length - 1 := by omega
          rwa [he] at hc
    · by_cases hl : k + 1 ≤ i
      · rcases (hsp k hk).2 with hg | hc
        · omega
        · exact hc
      · have hz : i - (k + 1) = 0 := by omega
        rw [hz]
        have hi1 : i - 1 < order := by omega
        rcases (hsp (i - 1) hi1).2 with hg | hc
        · omega
        · have he : i - (i - 1 + 1) = 0 := by omega
          rwa [he] at hc

theorem mem_argrelextrema (comp : ℚ → ℚ → Bool) (xs : List ℚ) (order i : Nat) :
    i ∈ argrelextrema comp xs order ↔
      i < xs.length ∧ relOk comp xs order i = true := by
  unfold argrelextrema
  simp [List.mem_filter, List.mem_range]

theorem gtB_irrefl : ∀ a : ℚ, gtB a a = false := by
  intro a
  simp [gtB]

theorem ltB_irrefl : ∀ a : ℚ, ltB a a = false := by
  intro a
  simp [ltB]

theorem mem_argrelextrema_spec (comp : ℚ → ℚ → Bool)
    (hirr : ∀ a, comp a a = false) (ys : List ℚ) (j : Nat) :
    j ∈ argrelextrema comp ys 3 ↔
      0 < j ∧ j + 1 < ys.length ∧ specRelAt comp ys 3 j = true := by
  rw [mem_argrelextrema]
  constructor
  · rintro ⟨hj, hr⟩
    exact (relOk_iff_spec comp hirr ys 3 j (by omega) hj).mp hr
  · rintro ⟨h0, h1, hsp⟩
    have hj : j < ys.length := by omega
    exact ⟨hj, (relOk_iff_spec comp hirr ys 3 j (by omega) hj).mpr ⟨h0, h1, hsp⟩⟩

/-- C1 (amended): with `order = 3`, `get_extrema_idx` returns exactly the
interior indices (`0 < i` and `i + 1 < n`) whose value is strictly greater
(maxima) resp. strictly less (minima) than every value at distance `1..3`
within the array bounds; boundary indices are never returned even when they
satisfy that comparison.  The pipeline applies it to the eccentricity,
scaled-obliquity and precession-index series of the sorted filtered table —
never to the insolation series — and every returned index is a valid
position in that table. -/
theorem get_extrema_idx_spec (xs : List ℚ) (i : Nat) (t : List Row) (pi : ℚ)
    (sine : ℚ → ℚ) :
    (i ∈ (get_extrema_idx xs 3).1 ↔
      0 < i ∧ i + 1 < xs.length ∧ specMaxAt xs 3 i = true) ∧
    (i ∈ (get_extrema_idx xs 3).2 ↔
      0 < i ∧ i + 1 < xs.length ∧ specMinAt xs 3 i = true) ∧
    Insolation.ecc_extrema t = get_extrema_idx (Insolation.eccSeries t) 3 ∧
    Insolation.obl_extrema t = get_extrema_idx (Insolation.oblSeries t) 3 ∧
    Insolation.prec_extrema pi sine t =
      get_extrema_idx (Insolation.precSeries pi sine t) 3 ∧
    (∀ j, (j ∈ (Insolation.ecc_extrema t).1 ∨ j ∈ (Insolation.ecc_extrema t).2 ∨
        j ∈ (Insolation.obl_extrema t).1 ∨ j ∈ (Insolation.obl_extrema t).2 ∨
        j ∈ (Insolation.prec_extrema pi sine t).1 ∨
        j ∈ (Insolation.prec_extrema pi sine t).2) →
      j < (Insolation.transform t).length) := by
  refine ⟨mem_argrelextrema_spec gtB gtB_irrefl xs i,
    mem_argrelextrema_spec ltB ltB_irrefl xs i, rfl, rfl, rfl, ?_⟩
  intro j hj
  rcases hj with h | h | h | h | h | h
  · have hl := ((mem_argrelextrema gtB (Insolation.eccSeries t) 3 j).mp h).1
    simpa [Insolation.eccSeries] using hl
  · have hl := ((mem_argrelextrema ltB (Insolation.eccSeries t) 3 j).mp h).1
    simpa [Insolation.eccSeries] using hl
  · have hl := ((mem_argrelextrema gtB (Insolation.oblSeries t) 3 j).mp h).1
    simpa [Insolation.oblSeries, scaleObl_length, Insolation.oblRawSeries] using hl
  · have hl := ((mem_argrelextrema ltB (Insolation.oblSeries t) 3 j).mp h).1
    simpa [Insolation.oblSeries, scaleObl_length, Insolation.oblRawSeries] using hl
  · have hl := ((mem_argrelextrema gtB (Insolation.precSeries pi sine t) 3 j).mp h).1
    simpa [Insolation.precSeries] using hl
  · have hl := ((mem_argrelextrema ltB (Insolation.precSeries pi sine t) 3 j).mp h).1
    simpa [Insolation.precSeries] using hl

theorem get_extrema_idx_spec_witness :
    2 ∈ (get_extrema_idx [(1 : ℚ), 5, 9, 4, 3] 3).1 :=
  (get_extrema_idx_spec [(1 : ℚ), 5, 9, 4, 3] 2 [] 0 (fun x => x)).1.mpr
    ⟨by decide, by decide, by decide⟩

/-- C1 counterexample: on the sorted series `[1, 2, 3, 4, 5]` with
`order = 3`, the last index 4 is strictly greater than every neighbour within
bounds at distance `1..3` (and index 0 strictly less), yet `get_extrema_idx`
returns no extrema at all, because `argrelextrema` clips out-of-bounds
neighbours to the boundary element itself: the claim's iff fails at the
boundary. -/
theorem get_extrema_idx_boundary_cex :
    specMaxAt [(1 : ℚ), 2, 3, 4, 5] 3 4 = true ∧
    specMinAt [(1 : ℚ), 2, 3, 4, 5] 3 0 = true ∧
    get_extrema_idx [(1 : ℚ), 2, 3, 4, 5] 3 = ([], []) ∧
    ¬ (4 ∈ (get_extrema_idx [(1 : ℚ), 2, 3, 4, 5] 3).1 ↔
        specMaxAt [(1 : ℚ), 2, 3, 4, 5] 3 4 = true) := by
  refine ⟨by decide, by decide, by decide, ?_⟩
  intro hiff
  exact absurd (hiff.mpr (by decide)) (by decide)

theorem head?_dropWhile {α : Type} (p : α → Bool) (l : List α) :
    ∀ c, (l.dropWhile p).head? = some c → p c = false := by
  intro c hc
  have hm := List.head?_dropWhile_not p l
  rw [hc] at hm
  exact hm

theorem getLast?_eq_of_suffix {α : Type} {l₁ l₂ : List α} (h : l₂ <:+ l₁)
    (hne : l₂ ≠ []) : l₂.getLast? = l₁.getLast? := by
  obtain ⟨u, rfl⟩ := h
  rw [List.getLast?_append]
  cases hg : l₂.getLast? with
  | none => exact absurd (List.getLast?_eq_none_iff.mp hg) hne
  | some c => rfl

theorem head?_pyStrip (s : List Char) :
    ∀ c, (pyStrip s).head? = some c → pyIsSpace c = false := by
  intro c hc
  unfold pyStrip at hc
  rw [List.head?_reverse] at hc
  have hBne : (s.dropWhile pyIsSpace).reverse.dropWhile pyIsSpace ≠ [] := by
    intro hB0
    rw [hB0] at hc
    simp at hc
  have h1 := getLast?_eq_of_suffix (List.dropWhile_suffix pyIsSpace) hBne
  rw [h1, List.getLast?_reverse] at hc
  exact head?_dropWhile pyIsSpace s c hc

theorem getLast?_pyStrip (s : List Char) :
    ∀ c, (pyStrip s).getLast? = some c → pyIsSpace c = false := by
  intro c hc
  unfold pyStrip at hc
  rw [List.getLast?_reverse] at hc
  exact head?_dropWhile pyIsSpace _ c hc

theorem dropWhile_eq_self_of_head {α : Type} (p : α → Bool) (l : List α)
    (h : ∀ c, l.head? = some c → p c = false) : l.dropWhile p = l := by
  cases l with
  | nil => rfl
  | cons a l => simp [List.dropWhile_cons, h a rfl]

theorem pyStrip_idem (s : List Char) : pyStrip (pyStrip s) = pyStrip s := by
  have h1 : (pyStrip s).dropWhile pyIsSpace = pyStrip s :=
    dropWhile_eq_self_of_head pyIsSpace (pyStrip s) (head?_pyStrip s)
  show (((pyStrip s).dropWhile pyIsSpace).reverse.dropWhile pyIsSpace).reverse =
    pyStrip s
  rw [h1]
  have h2 : (pyStrip s).reverse.dropWhile pyIsSpace = (pyStrip s).reverse := by
    apply dropWhile_eq_self_of_head
    intro c hc
    rw [List.head?_reverse] at hc
    exact getLast?_pyStrip s c hc
  rw [h2, List.reverse_reverse]

theorem mem_pyStrip {c : Char} {s : List Char} (h : c ∈ pyStrip s) : c ∈ s := by
  unfold pyStrip at h
  rw [List.mem_reverse] at h
  have h2 : c ∈ (s.dropWhile pyIsSpace).reverse :=
    (List.dropWhile_sublist _).subset h
  rw [List.mem_reverse] at h2
  exact (List.dropWhile_sublist _).subset h2

theorem mem_norm_col (s : List Char) (c : Char) (hc : c ∈ norm_col s) :
    c ≠ '﻿' ∧ c ≠ ' ' := by
  have h1 : c ∈ replaceChar ' ' ' ' (removeChar '﻿' s) := mem_pyStrip hc
  unfold replaceChar at h1
  rw [List.mem_map] at h1
  obtain ⟨d, hd, hdc⟩ := h1
  unfold removeChar at hd
  rw [List.mem_filter] at hd
  have hdB : d ≠ '﻿' := by simpa using hd.2
  by_cases hdn : d = ' '
  · rw [if_pos hdn] at hdc
    rw [← hdc]
    exact ⟨by decide, by decide⟩
  · rw [if_neg hdn] at hdc
    rw [← hdc]
    exact ⟨hdB, hdn⟩

theorem map_id_of_mem {α : Type} (l : List α) (f : α → α)
    (h : ∀ a ∈ l, f a = a) : l.map f = l := by
  induction l with
  | nil => rfl
  | cons a l ih =>
    rw [List.map_cons, h a (List.mem_cons_self a l),
      ih (fun b hb => h b (List.mem_cons_of_mem a hb))]

theorem norm_col_idem (s : List Char) : norm_col (norm_col s) = norm_col s := by
  have hrm : removeChar '﻿' (norm_col s) = norm_col s := by
    unfold removeChar
    rw [List.filter_eq_self]
    intro a ha
    simpa using (mem_norm_col s a ha).1
  have hrp : replaceChar ' ' ' ' (norm_col s) = norm_col s := by
    unfold replaceChar
    apply map_id_of_mem
    intro a ha
    exact if_neg (mem_norm_col s a ha).2
  show pyStrip (replaceChar ' ' ' ' (removeChar '﻿' (norm_col s))) =
    norm_col s
  rw [hrm, hrp]
  show pyStrip (pyStrip (replaceChar ' ' ' ' (removeChar '﻿' s))) =
    norm_col s
  rw [pyStrip_idem]
  rfl

/-- C10: `norm_col` is idempotent, maps `None` to the empty string, its
output contains no BOM and no no-break space and has no leading or trailing
whitespace, and `robust_read_table` applies it to every column header. -/
theorem norm_col_spec (s : List Char) (hs : List (List Char)) :
    norm_col (norm_col s) = norm_col s ∧
    norm_col_of_opt none = [] ∧
    '﻿' ∉ norm_col s ∧
    ' ' ∉ norm_col s ∧
    (∀ c, (norm_col s).head? = some c → pyIsSpace c = false) ∧
    (∀ c, (norm_col s).getLast? = some c → pyIsSpace c = false) ∧
    robust_read_table_headers hs = hs.map norm_col := by
  refine ⟨norm_col_idem s, rfl, ?_, ?_, ?_, ?_, rfl⟩
  · intro h
    exact (mem_norm_col s _ h).1 rfl
  · intro h
    exact (mem_norm_col s _ h).2 rfl
  · exact fun c hc => head?_pyStrip _ c hc
  · exact fun c hc => getLast?_pyStrip _ c hc

theorem norm_col_spec_witness : pyIsSpace 'A' = false :=
  (norm_col_spec " Age ".data []).2.2.2.2.1 'A' (by decide)
